import Mathlib

/-!
# Verification of the cms-backend playlist expansion engine and capacity policy

Shallow embedding of the Express/Mongoose route handlers of the
`cms-backend` repository.  The document store is modelled as explicit
lists of records; MongoDB ObjectIds are modelled as `Nat` (every id in
the model is well-formed, so the `ObjectId.isValid` guards of the source
cannot fail and are omitted); JS numbers that carry durations/sizes are
modelled as `Int`; nullable / possibly-`undefined` fields are `Option`.

Embedded source files:
* `src/routes/player.routes.ts`   — flattened player expansion (`formatAsset`,
  `GET /player/playlist`, `GET /player/playlist/:id`)
* `src/routes/playlist.routes.ts` — rich expansion (`expandPlaylistAssets`)
  and the playlist write paths (`POST /playlists`, `PUT/PATCH /playlists/:id`,
  `POST /playlists/add-assets`, `POST /playlists/:id/campaigns`)
* `src/routes/asset.routes.ts`    — asset write paths (`POST /assets`,
  `POST /assets/upload`, `PUT /assets/:id`)
-/

namespace CMS


/-! ## JavaScript value helpers

The handlers use `||` (truthy-or: `0`, `""`, `null`, `undefined` are falsy)
and `??` (nullish-or: only `null`/`undefined` fall through).  On our model
types these become: -/

/-- JS `d || dflt` on a nullable number: `null`/`undefined` and `0` both
fall through to the default. -/
def jsOrNum (d : Option Int) (dflt : Int) : Int :=
  match d with
  | none => dflt
  | some v => if v = 0 then dflt else v

/-- JS `a || b` where both sides are nullable numbers. -/
def jsNumOr (a b : Option Int) : Option Int :=
  match a with
  | none => b
  | some v => if v = 0 then b else some v

/-- JS `s || dflt` on a string: the empty string is falsy. -/
def jsStrOr (s dflt : String) : String :=
  if s = "" then dflt else s

/-- JS `s || null` on a nullable string: an empty string collapses to `null`. -/
def jsStrOrNull (s : Option String) : Option String :=
  match s with
  | none => none
  | some v => if v = "" then none else some v

/-- ASCII model of JS `String.prototype.toLowerCase`. -/
def jsToLowerChar (c : Char) : Char :=
  if 65 ≤ c.toNat ∧ c.toNat ≤ 90 then Char.ofNat (c.toNat + 32) else c

def jsToLower (s : String) : String := ⟨s.data.map jsToLowerChar⟩

/-- ASCII model of JS `String.prototype.toUpperCase`. -/
def jsToUpperChar (c : Char) : Char :=
  if 97 ≤ c.toNat ∧ c.toNat ≤ 122 then Char.ofNat (c.toNat - 32) else c

def jsToUpper (s : String) : String := ⟨s.data.map jsToUpperChar⟩

def jsWhitespaceChar (c : Char) : Bool :=
  c = ' ' ∨ c = '\t' ∨ c = '\n' ∨ c = '\r'

/-- ASCII model of JS `String.prototype.trim`. -/
def jsTrim (s : String) : String :=
  ⟨((s.data.dropWhile jsWhitespaceChar).reverse.dropWhile jsWhitespaceChar).reverse⟩

/-! ## Data model (Mongoose schemas, as used by the routes) -/

/-- Model of `models/Campaign` (only the fields the embedded routes read). -/
structure Campaign where
  _id : Nat
  name : String
  userId : String
  deriving DecidableEq, Repr

/-- Model of `models/Asset`: media item; `campaignId = none` marks a direct asset.
`createdAt` is the creation timestamp used by the `sort({createdAt: 1})`
queries. -/
structure Asset where
  _id : Nat
  name : String
  type : String
  url : String
  thumbnail : Option String
  duration : Option Int
  size : Option Int
  userId : String
  campaignId : Option Nat
  createdAt : Nat
  deriving DecidableEq, Repr

/-- A legacy playlist item (`playlist.items[i]`): an asset reference with an
optional per-item duration override. -/
structure LegacyItem where
  assetId : Option Nat
  duration : Option Int
  deriving DecidableEq, Repr

/-- Model of `models/Playlist` (fields read by the embedded routes). -/
structure Playlist where
  _id : Nat
  name : String
  userId : String
  status : String
  campaignIds : List Nat
  assetIds : List Nat
  items : List LegacyItem
  deriving DecidableEq, Repr

/-- Model of `models/Display` (fields read by `GET /player/playlist`). -/
structure Display where
  deviceId : String
  playlistId : Option Nat
  deriving DecidableEq, Repr

/-- The document store: one list per collection. -/
structure DB where
  campaigns : List Campaign
  assets : List Asset
  playlists : List Playlist
  displays : List Display
  deriving DecidableEq, Repr

/-! ## Store queries

`Asset.find(filter).sort({ createdAt: 1 })` is modelled as a stable
insertion sort by `createdAt` over the filtered collection. -/

/-- Insert an asset into a list sorted by `createdAt`, after any
already-present asset with an equal or smaller timestamp (stable). -/
def insertByCreatedAt (a : Asset) : List Asset → List Asset
  | [] => [a]
  | b :: bs =>
    if a.createdAt < b.createdAt then a :: b :: bs
    else b :: insertByCreatedAt a bs

/-- Sort a list of assets oldest-first by `createdAt` (model of
`.sort({ createdAt: 1 })`). -/
def sortByCreatedAt (l : List Asset) : List Asset :=
  l.foldr insertByCreatedAt []

def findCampaign (db : DB) (id : Nat) : Option Campaign :=
  db.campaigns.find? (fun c => c._id = id)

def findAsset (db : DB) (id : Nat) : Option Asset :=
  db.assets.find? (fun a => a._id = id)

def findPlaylist (db : DB) (id : Nat) : Option Playlist :=
  db.playlists.find? (fun p => p._id = id)

def findDisplay (db : DB) (deviceId : String) : Option Display :=
  db.displays.find? (fun d => d.deviceId = deviceId)

/-- Model of `Asset.find({ campaignId }).sort({ createdAt: 1 })`. -/
def assetsByCampaign (db : DB) (cid : Nat) : List Asset :=
  sortByCreatedAt (db.assets.filter (fun a => a.campaignId = some cid))

/-- Model of `Asset.find({ _id: { $in: ids } }).sort({ createdAt: 1 })`: matching
documents (each once), sorted by creation time — NOT in the order of `ids`. -/
def assetsByIds (db : DB) (ids : List Nat) : List Asset :=
  sortByCreatedAt (db.assets.filter (fun a => ids.contains a._id))

/-- Model of `Asset.countDocuments({ campaignId: cid })`. -/
def countAssetsInCampaign (db : DB) (cid : Nat) : Nat :=
  (db.assets.filter (fun a => a.campaignId = some cid)).length

/-! ## Player routes (`player.routes.ts`): flattened strict expansion -/

/-- The strict player item (`FlattenedAsset` in `player.routes.ts`). -/
structure FlatAsset where
  assetId : Nat
  type : String
  url : String
  duration : Int
  deriving DecidableEq, Repr

/-- Model of `formatAsset(asset, durationOverride?)` from `player.routes.ts`
(lines 136–176, duplicated verbatim at 295–335): validates required
fields, lowercases the type and drops anything that is not
image/video, resolves the duration with `??` (nullish) semantics,
drops empty urls, trims the url, clamps the duration to `≥ 0`. -/
def formatAsset (asset : Asset) (durationOverride : Option Int) : Option FlatAsset :=
  -- `if (!asset._id || !asset.type || !asset.url) return null`
  if asset.type = "" ∨ asset.url = "" then none
  -- `typeLower` must be "image" or "video", everything else is dropped
  else if jsToLower asset.type ≠ "image" ∧ jsToLower asset.type ≠ "video" then none
  -- `if (!asset.url || asset.url.trim() === "") return null`
  else if jsTrim asset.url = "" then none
  else
    -- non-absolute urls are only warned about, then passed through trimmed;
    -- duration is `durationOverride ?? asset.duration ?? (VIDEO ? 0 : 10)`,
    -- clamped with `Math.max(0, duration)`
    some { assetId := asset._id
           type := jsToLower asset.type
           url := jsTrim asset.url
           duration := max 0 (durationOverride.getD
             (asset.duration.getD (if asset.type = "VIDEO" then 0 else 10))) }

/-- One `flattenedAssets.push(formattedAsset)` step of the player loops. -/
def pushFlat (acc : List FlatAsset) (f? : Option FlatAsset) : List FlatAsset :=
  match f? with
  | none => acc
  | some f => acc ++ [f]

/-- Steps 1–2 of the player handlers (campaign expansion then direct
assets), exactly as in `player.routes.ts` lines 178–215 / 337–372.
No dedup set is maintained here. -/
def playerPhase12 (db : DB) (p : Playlist) : List FlatAsset :=
  let fromCampaigns :=
    p.campaignIds.foldl
      (fun acc cid =>
        (assetsByCampaign db cid).foldl
          (fun acc a => pushFlat acc (formatAsset a none)) acc)
      []
  (assetsByIds db p.assetIds).foldl
    (fun acc a => pushFlat acc (formatAsset a none)) fromCampaigns

/-- Step 3 of the player handlers: resolve each legacy item's asset and
format it with the item's duration override. -/
def playerLegacy (db : DB) (items : List LegacyItem) : List FlatAsset :=
  items.foldl
    (fun acc it =>
      match it.assetId with
      | none => acc
      | some aid =>
        match findAsset db aid with
        | none => acc
        | some a => pushFlat acc (formatAsset a it.duration))
    []

/-- The full flattened-item computation of both player endpoints: legacy
items are used only when steps 1–2 produced nothing and `items` is
non-empty. -/
def playerExpandItems (db : DB) (p : Playlist) : List FlatAsset :=
  let flattened := playerPhase12 db p
  if flattened.isEmpty ∧ ¬ p.items.isEmpty then playerLegacy db p.items
  else flattened

/-- Outcome of a player endpoint: HTTP status plus the response items. -/
inductive PlayerResp where
  | badRequest
  | notFound
  | ok (playlistId : Nat) (items : List FlatAsset)
  deriving DecidableEq, Repr

def PlayerResp.status : PlayerResp → Nat
  | .badRequest => 400
  | .notFound => 404
  | .ok _ _ => 200

def PlayerResp.items : PlayerResp → List FlatAsset
  | .badRequest => []
  | .notFound => []
  | .ok _ items => items

/-- Handler `GET /player/playlist?playlistId&deviceId` (`player.routes.ts` 88–252).
The inactive branch answers 200 with an empty list (the response labels
the empty array `assets` rather than `items`; both are modelled by the
`items` payload of `ok`). -/
def getPlayerPlaylist (db : DB) (playlistId? : Option Nat)
    (deviceId? : Option String) : PlayerResp :=
  let target : Option Nat :=
    match playlistId?, deviceId? with
    | some pid, _ => some pid
    | none, some did => (findDisplay db did).bind (fun d => d.playlistId)
    | none, none => none
  match target with
  | none => .badRequest
  | some tid =>
    match findPlaylist db tid with
    | none => .notFound
    | some p =>
      if p.status = "inactive" then .ok p._id []
      else .ok p._id (playerExpandItems db p)

/-- Handler `GET /player/playlist/:id` (`player.routes.ts` 264–409). -/
def getPlayerPlaylistById (db : DB) (id : Nat) : PlayerResp :=
  match findPlaylist db id with
  | none => .notFound
  | some p =>
    if p.status = "inactive" then .ok p._id []
    else .ok p._id (playerExpandItems db p)

/-! ## Rich expansion (`playlist.routes.ts`, `expandPlaylistAssets`) -/

/-- An entry of the `finalAssets` array built by `expandPlaylistAssets`.
The duration stays `Option` because the legacy branch can leave it
undefined (`item.duration || asset.duration` with both absent). -/
structure RichItem where
  assetId : Nat
  name : String
  type : String
  url : String
  thumbnail : Option String
  duration : Option Int
  size : Option Int
  createdAt : Nat
  deriving DecidableEq, Repr

/-- The rich item built for a campaign or direct asset
(`playlist.routes.ts` lines 282–291 and 348–357): `||`-defaults on every
field; the duration default is `asset.duration || (VIDEO ? 0 : 10)`,
which also replaces an explicit `0`; there is no clamp and no type
filter. -/
def richOfAsset (a : Asset) : RichItem :=
  { assetId := a._id
    name := jsStrOr a.name "Unnamed Asset"
    type := jsStrOr a.type "IMAGE"
    url := a.url
    thumbnail := jsStrOrNull a.thumbnail
    duration := some (jsOrNum a.duration (if a.type = "VIDEO" then 0 else 10))
    size := match a.size with | none => none | some v => if v = 0 then none else some v
    createdAt := a.createdAt }

/-- The rich item built for a legacy item (`playlist.routes.ts` lines
381–390): raw fields, duration `item.duration || asset.duration`. -/
def richOfLegacy (a : Asset) (it : LegacyItem) : RichItem :=
  { assetId := a._id
    name := a.name
    type := a.type
    url := a.url
    thumbnail := a.thumbnail
    duration := jsNumOr it.duration a.duration
    size := a.size
    createdAt := a.createdAt }

/-- The dedup-and-push step shared by phases 1 and 2 of
`expandPlaylistAssets`: state is `(seenAssetIds, finalAssets)`. -/
def pushDedup (st : List Nat × List RichItem) (a : Asset) :
    List Nat × List RichItem :=
  if a._id ∈ st.1 then st
  else (a._id :: st.1, st.2 ++ [richOfAsset a])

/-- Phase-1 treatment of one campaign reference: skip silently when the
campaign does not exist, otherwise push its assets (sorted oldest-first)
through the dedup set. -/
def campaignStep (db : DB) (st : List Nat × List RichItem) (cid : Nat) :
    List Nat × List RichItem :=
  match findCampaign db cid with
  | none => st
  | some _ => (assetsByCampaign db cid).foldl pushDedup st

/-- Phases 1–2 of `expandPlaylistAssets`: campaigns in list order, then
the direct assets batch (sorted by `createdAt`), all through one shared
dedup set. -/
def richPhase12 (db : DB) (p : Playlist) : List Nat × List RichItem :=
  let st1 := p.campaignIds.foldl (campaignStep db) ([], [])
  (assetsByIds db p.assetIds).foldl pushDedup st1

/-- Phase 3 (legacy fallback body) of `expandPlaylistAssets`. -/
def richLegacyFold (db : DB) (items : List LegacyItem)
    (st : List Nat × List RichItem) : List Nat × List RichItem :=
  items.foldl
    (fun st it =>
      match it.assetId with
      | none => st
      | some aid =>
        match findAsset db aid with
        | none => st
        | some a =>
          if a._id ∈ st.1 then st
          else (a._id :: st.1, st.2 ++ [richOfLegacy a it]))
    st

/-- Model of `expandPlaylistAssets` (`playlist.routes.ts` 206–409), returning the
`finalAssets` array. -/
def expandPlaylistAssets (db : DB) (p : Playlist) : List RichItem :=
  let st := richPhase12 db p
  if st.2.isEmpty ∧ ¬ p.items.isEmpty then (richLegacyFold db p.items st).2
  else st.2

/-! ## Write paths: constants and result type -/

/-- Constant `MAX_ASSETS_PER_CAMPAIGN` (`asset.routes.ts` line 32). -/
def MAX_ASSETS_PER_CAMPAIGN : Nat := 9

/-- Constant `MAX_CAMPAIGNS_PER_PLAYLIST` (`playlist.routes.ts` line 29). -/
def MAX_CAMPAIGNS_PER_PLAYLIST : Nat := 7

/-- Outcome of a mutating handler: HTTP status plus the store afterwards
(unchanged on every error path — errors return before any write). -/
structure HRes where
  status : Nat
  db : DB
  deriving DecidableEq, Repr

/-- A JSON body field that may be absent, explicitly `null`, or a value. -/
inductive JsonField (α : Type) where
  | absent
  | null
  | val (a : α)
  deriving DecidableEq, Repr

/-- The `$set` semantics of one field onto a nullable stored field. -/
def JsonField.apply {α : Type} : JsonField α → Option α → Option α
  | .absent, old => old
  | .null, _ => none
  | .val a, _ => some a

def validTypes : List String := ["IMAGE", "VIDEO", "HTML", "URL"]

def validStatuses : List String := ["active", "inactive", "scheduled"]

/-! ## Asset write paths (`asset.routes.ts`) -/

/-- Body of `POST /assets`.  `campaignId = none` models an absent, `null`,
`"null"` or empty campaign reference (all treated alike by the handler);
strings model falsy-required checks with `""`. -/
structure CreateAssetBody where
  name : String
  type : String
  url : String
  thumbnail : Option String
  duration : Option Int
  size : Option Int
  userId : String
  campaignId : Option Nat
  deriving DecidableEq, Repr

/-- The asset document built by `POST /assets` (lines 947–956). -/
def mkAsset (body : CreateAssetBody) (campaignId : Option Nat)
    (newId now : Nat) : Asset :=
  { _id := newId
    name := body.name
    type := (jsToUpper body.type)
    url := body.url
    thumbnail := jsStrOrNull body.thumbnail       -- `thumbnail || null`
    duration := jsNumOr body.duration none        -- `duration || null`
    size := some (jsOrNum body.size 0)            -- `size || 0`
    userId := body.userId
    campaignId := campaignId
    createdAt := now }

/-- Handler `POST /assets` (`asset.routes.ts` 879–1010).  `newId`/`now` model the
fresh ObjectId and the timestamp. -/
def createAsset (db : DB) (body : CreateAssetBody) (newId now : Nat) : HRes :=
  if body.name = "" ∨ body.type = "" ∨ body.url = "" ∨ body.userId = "" then
    ⟨400, db⟩
  else if ¬ validTypes.contains (jsToUpper body.type) then ⟨400, db⟩
  else
    match body.campaignId with
    | some cid =>
      match findCampaign db cid with
      | none => ⟨404, db⟩
      | some _ =>
        if countAssetsInCampaign db cid ≥ MAX_ASSETS_PER_CAMPAIGN then ⟨400, db⟩
        else ⟨201, { db with assets := db.assets ++ [mkAsset body (some cid) newId now] }⟩
    | none => ⟨201, { db with assets := db.assets ++ [mkAsset body none newId now] }⟩

/-- The uploaded file, as exposed by the upload middleware. -/
structure UploadFile where
  originalname : String
  mimetype : String
  size : Int
  deriving DecidableEq, Repr

/-- Form body of `POST /assets/upload` (`name = ""` models an absent name). -/
structure UploadBody where
  file : Option UploadFile
  userId : String
  campaignId : Option Nat
  name : String
  thumbnail : Option String
  deriving DecidableEq, Repr

/-- The `ALLOWED_MIME_TYPES` table of the upload middleware
(`middleware/upload.ts`): the finite allow-list of mime types; note that
`text/html` and `application/zip` are accepted and map to `HTML`. -/
def ALLOWED_MIME_TYPES : List (String × String) :=
  [("image/png", "IMAGE"), ("image/jpeg", "IMAGE"), ("image/jpg", "IMAGE"),
   ("image/gif", "IMAGE"), ("image/webp", "IMAGE"),
   ("video/mp4", "VIDEO"), ("video/webm", "VIDEO"), ("video/quicktime", "VIDEO"),
   ("video/x-msvideo", "VIDEO"), ("video/x-matroska", "VIDEO"),
   ("video/mpeg", "VIDEO"),
   ("text/html", "HTML"), ("application/zip", "HTML")]

/-- Model of `getAssetTypeFromMime` from `middleware/upload.ts`:
`ALLOWED_MIME_TYPES[mimeType] || null` — a lookup in the finite table,
`none` for any mime type not listed. -/
def getAssetTypeFromMime (mime : String) : Option String :=
  (ALLOWED_MIME_TYPES.find? (fun kv => kv.1 = mime)).map (fun kv => kv.2)

/-- The asset record built by `POST /assets/upload` (lines 567–578): the
name falls back to the file name, the url is the S3 object url, videos
get a default duration of 1 and a thumbnail only when one was sent. -/
def mkUploadAsset (body : UploadBody) (file : UploadFile) (assetType : String)
    (fileUrl thumbUrl : String) (newId now : Nat) : Asset :=
  { _id := newId
    name := jsStrOr body.name file.originalname
    type := assetType
    url := fileUrl
    thumbnail :=
      if assetType = "VIDEO" ∧ body.thumbnail.isSome then some thumbUrl
      else none
    duration := some (if assetType = "VIDEO" then 1 else 10)
    size := some file.size
    userId := body.userId
    campaignId := body.campaignId
    createdAt := now }

/-- Handler `POST /assets/upload` (`asset.routes.ts` 457–615).  The S3 collaborator
is a black box: `s3ok` models `isS3Configured()`, `fileUrl`/`thumbUrl` the
urls returned by `uploadToS3`. -/
def uploadAsset (db : DB) (body : UploadBody) (s3ok : Bool)
    (fileUrl thumbUrl : String) (newId now : Nat) : HRes :=
  if ¬ s3ok then ⟨503, db⟩
  else
    match body.file with
    | none => ⟨400, db⟩
    | some file =>
      if body.userId = "" then ⟨400, db⟩
      else
        match getAssetTypeFromMime file.mimetype with
        | none => ⟨400, db⟩
        | some assetType =>
          match body.campaignId with
          | some cid =>
            match findCampaign db cid with
            | none => ⟨404, db⟩
            | some _ =>
              if countAssetsInCampaign db cid ≥ MAX_ASSETS_PER_CAMPAIGN then ⟨400, db⟩
              else ⟨201, { db with assets :=
                db.assets ++ [mkUploadAsset body file assetType fileUrl thumbUrl newId now] }⟩
          | none => ⟨201, { db with assets :=
              db.assets ++ [mkUploadAsset body file assetType fileUrl thumbUrl newId now] }⟩

/-- Body of `PUT /assets/:id`.  `campaignId` distinguishes absent, `null`
and a value because the handler treats them differently. -/
structure UpdateAssetBody where
  name : Option String
  type : Option String
  url : Option String
  thumbnail : JsonField String
  duration : JsonField Int
  size : JsonField Int
  campaignId : JsonField Nat
  deriving DecidableEq, Repr

/-- The `$set: updateData` application of `PUT /assets/:id` (line 1089). -/
def applyAssetUpdate (body : UpdateAssetBody) (a : Asset) : Asset :=
  { a with
    name := body.name.getD a.name
    type := (match body.type with
             | none => a.type
             | some t => if t = "" then "" else (jsToUpper t))
    url := body.url.getD a.url
    thumbnail := body.thumbnail.apply a.thumbnail
    duration := body.duration.apply a.duration
    size := body.size.apply a.size
    campaignId := body.campaignId.apply a.campaignId }

/-- The tail of `PUT /assets/:id` after the campaign-change branch: type
validation (only a truthy `type` is validated) and the `$set` write. -/
def updateAssetApply (db : DB) (id : Nat) (body : UpdateAssetBody) : HRes :=
  if (match body.type with
      | some t => t != "" && !(validTypes.contains (jsToUpper t))
      | none => false) then ⟨400, db⟩
  else
    let assets' := db.assets.map (fun a =>
      if a._id = id then applyAssetUpdate body a else a)
    ⟨200, { db with assets := assets' }⟩

/-- Handler `PUT /assets/:id` (`asset.routes.ts` 1022–1110).  When the body carries
a truthy `campaignId` the handler evaluates
`existingAsset.campaignId.toString()`: on a direct asset (`campaignId`
`null`) this throws a TypeError which the `catch` maps to HTTP 500 before
any validation or write. -/
def updateAsset (db : DB) (id : Nat) (body : UpdateAssetBody) : HRes :=
  match findAsset db id with
  | none => ⟨404, db⟩
  | some existing =>
    match body.campaignId with
    | .val cid =>
      match existing.campaignId with
      | none => ⟨500, db⟩        -- null dereference, caught as InternalError
      | some oldCid =>
        if cid ≠ oldCid then
          match findCampaign db cid with
          | none => ⟨404, db⟩
          | some _ =>
            if countAssetsInCampaign db cid ≥ MAX_ASSETS_PER_CAMPAIGN then ⟨400, db⟩
            else updateAssetApply db id body
        else updateAssetApply db id body
    | _ => updateAssetApply db id body

/-! ## Playlist write paths (`playlist.routes.ts`) -/

/-- Does some stored asset with this id exist as a direct asset?  Models
membership in `Asset.find({ _id: { $in: ids }, campaignId: null })`. -/
def isDirectAssetId (db : DB) (aid : Nat) : Bool :=
  db.assets.any (fun a => a._id = aid ∧ a.campaignId = none)

/-- Body of `POST /playlists`.  Reference normalization (string id /
populated object / stringified id) collapses to the id in the model;
absent arrays are modelled as `[]` (the handler guards on
`&& length > 0`, so both behave identically). -/
structure CreatePlaylistBody where
  name : String
  userId : String
  status : Option String
  campaignIds : List Nat
  assetIds : List Nat
  deriving DecidableEq, Repr

/-- Handler `POST /playlists` (`playlist.routes.ts` 492–659). -/
def createPlaylist (db : DB) (body : CreatePlaylistBody) (newId : Nat) : HRes :=
  if (jsTrim body.name) = "" then ⟨400, db⟩
  else if body.userId = "" then ⟨400, db⟩
  else if body.campaignIds.length > 0 ∧
      body.campaignIds.length > MAX_CAMPAIGNS_PER_PLAYLIST then ⟨400, db⟩
  else if body.campaignIds.length > 0 ∧
      ¬ body.campaignIds.all (fun cid => (findCampaign db cid).isSome) then ⟨404, db⟩
  else if body.assetIds.length > 0 ∧
      ¬ body.assetIds.all (isDirectAssetId db) then ⟨404, db⟩
  else if (match body.status with
           | some s => !(validStatuses.contains s)
           | none => false) then ⟨400, db⟩
  else
    ⟨201, { db with playlists := db.playlists ++
      [{ _id := newId
         name := (jsTrim body.name)
         userId := body.userId
         status := body.status.getD "inactive"
         campaignIds := body.campaignIds
         assetIds := body.assetIds
         items := [] }] }⟩

/-- Body of `PUT /playlists/:id` / `PATCH /playlists/:id`. -/
structure UpdatePlaylistBody where
  name : Option String
  status : Option String
  campaignIds : Option (List Nat)
  assetIds : Option (List Nat)
  deriving DecidableEq, Repr

/-- The `$set: updates` application of `PUT/PATCH /playlists/:id`. -/
def applyPlaylistUpdate (body : UpdatePlaylistBody) (p : Playlist) : Playlist :=
  { p with
    name := match body.name with | some n => jsTrim n | none => p.name
    status := body.status.getD p.status
    campaignIds := body.campaignIds.getD p.campaignIds
    assetIds := body.assetIds.getD p.assetIds }

/-- Handler `PUT /playlists/:id` (`playlist.routes.ts` 670–859): per-field
validation (name non-blank, known status, at most 7 campaigns that all
exist, direct assets that all exist) then one `$set` write. -/
def putPlaylist (db : DB) (id : Nat) (body : UpdatePlaylistBody) : HRes :=
  match findPlaylist db id with
  | none => ⟨404, db⟩
  | some _ =>
    if (match body.name with | some n => jsTrim n == "" | none => false) then ⟨400, db⟩
    else if (match body.status with
             | some s => !(validStatuses.contains s)
             | none => false) then ⟨400, db⟩
    else if (match body.campaignIds with
             | some l => decide (l.length > MAX_CAMPAIGNS_PER_PLAYLIST)
             | none => false) then ⟨400, db⟩
    else if (match body.campaignIds with
             | some l => decide (l.length > 0) && !(l.all (fun cid => (findCampaign db cid).isSome))
             | none => false) then ⟨404, db⟩
    else if (match body.assetIds with
             | some l => decide (l.length > 0) && !(l.all (isDirectAssetId db))
             | none => false) then ⟨404, db⟩
    else
      let playlists' := db.playlists.map (fun p =>
        if p._id = id then applyPlaylistUpdate body p else p)
      ⟨200, { db with playlists := playlists' }⟩

/-- Handler `PATCH /playlists/:id` (`playlist.routes.ts` 870–1043) duplicates the
PUT handler's validation and write logic verbatim (only response shape
and messages differ), so it is modelled by the same function. -/
def patchPlaylist (db : DB) (id : Nat) (body : UpdatePlaylistBody) : HRes :=
  putPlaylist db id body

/-- Body of `POST /playlists/add-assets`. -/
structure AddAssetsBody where
  playlistId : Option Nat
  campaignIds : Option (List Nat)
  assetIds : Option (List Nat)
  deriving DecidableEq, Repr

/-- Model of `const newCampaignIds = campaignIds.filter(cid => !existing.includes(cid))`
(line 1099): the body ids not already on the playlist. -/
def newCampaignIds (p : Playlist) (l : List Nat) : List Nat :=
  l.filter (fun cid => ¬ p.campaignIds.contains cid)

/-- The campaigns branch of `POST /playlists/add-assets` (lines
1086–1121): drop ids already present, reject when the combined count
would exceed the limit, require every new campaign to exist (the `$in`
query returns each stored document once, so an id duplicated in the body
also fails the length comparison). -/
def addAssetsCampaignStage (db : DB) (p : Playlist)
    (cl? : Option (List Nat)) : Except Nat (List Nat) :=
  match cl? with
  | none => .ok p.campaignIds
  | some l =>
    if l.isEmpty then .ok p.campaignIds
    else if p.campaignIds.length + (newCampaignIds p l).length >
        MAX_CAMPAIGNS_PER_PLAYLIST then .error 400
    else if (db.campaigns.filter (fun c => (newCampaignIds p l).contains c._id)).length ≠
        (newCampaignIds p l).length then .error 404
    else .ok (p.campaignIds ++ newCampaignIds p l)

/-- The direct-assets branch of `POST /playlists/add-assets` (lines
1124–1154): every referenced asset must exist as a direct asset, then
the not-yet-present ids are appended. -/
def addAssetsAssetStage (db : DB) (p : Playlist)
    (al? : Option (List Nat)) : Except Nat (List Nat) :=
  match al? with
  | none => .ok p.assetIds
  | some l =>
    if l.isEmpty then .ok p.assetIds
    else
      if (db.assets.filter (fun a => l.contains a._id ∧ a.campaignId = none)).length ≠
          l.length then .error 400
      else .ok (p.assetIds ++ l.filter (fun aid => ¬ p.assetIds.contains aid))

/-- Handler `POST /playlists/add-assets` (`playlist.routes.ts` 1059–1181): both
stages validate before the single `playlist.save()`; any error leaves
the store untouched. -/
def addAssetsToPlaylist (db : DB) (body : AddAssetsBody) : HRes :=
  match body.playlistId with
  | none => ⟨400, db⟩
  | some pid =>
    match findPlaylist db pid with
    | none => ⟨404, db⟩
    | some p =>
      match addAssetsCampaignStage db p body.campaignIds with
      | .error s => ⟨s, db⟩
      | .ok cids =>
        match addAssetsAssetStage db p body.assetIds with
        | .error s => ⟨s, db⟩
        | .ok aids =>
          let playlists' := db.playlists.map (fun q =>
            if q._id = pid then { q with campaignIds := cids, assetIds := aids }
            else q)
          ⟨200, { db with playlists := playlists' }⟩

/-- Handler `POST /playlists/:id/campaigns` (`playlist.routes.ts` 1240–1326):
missing/invalid campaign id → 400, absent playlist or campaign → 404,
full playlist (≥ 7) → 400, duplicate → 400, otherwise append and save. -/
def addCampaignToPlaylist (db : DB) (id : Nat) (campaignId : Option Nat) : HRes :=
  match campaignId with
  | none => ⟨400, db⟩
  | some cid =>
    match findPlaylist db id with
    | none => ⟨404, db⟩
    | some p =>
      match findCampaign db cid with
      | none => ⟨404, db⟩
      | some _ =>
        if p.campaignIds.length ≥ MAX_CAMPAIGNS_PER_PLAYLIST then ⟨400, db⟩
        else if p.campaignIds.contains cid then ⟨400, db⟩
        else
          let playlists' := db.playlists.map (fun q =>
            if q._id = id then { q with campaignIds := q.campaignIds ++ [cid] }
            else q)
          ⟨200, { db with playlists := playlists' }⟩

/-! ## Invariants -/

/-- Campaign capacity invariant: no campaign holds more than 9 assets. -/
def assetCapInv (db : DB) : Prop :=
  ∀ cid : Nat, countAssetsInCampaign db cid ≤ MAX_ASSETS_PER_CAMPAIGN

/-- Playlist capacity invariant: no stored playlist references more than
7 campaigns. -/
def playlistCapInv (db : DB) : Prop :=
  ∀ p ∈ db.playlists, p.campaignIds.length ≤ MAX_CAMPAIGNS_PER_PLAYLIST

/-- Store well-formedness: asset ids are pairwise distinct (ObjectIds). -/
def assetsWF (db : DB) : Prop :=
  (db.assets.map (fun a => a._id)).Nodup

/-- Store well-formedness: playlist ids are pairwise distinct (ObjectIds). -/
def playlistsWF (db : DB) : Prop :=
  (db.playlists.map (fun p => p._id)).Nodup

/-- Resolution of one legacy item in the player handlers: the item's
asset reference, resolved and formatted with the item's override. -/
def legacyResolve (db : DB) (it : LegacyItem) : Option FlatAsset :=
  it.assetId.bind (fun aid => (findAsset db aid).bind (fun a => formatAsset a it.duration))

def c3wAsset : Asset :=
  ⟨31, "i", "IMAGE", "http://cdn/i.png", none, some 7, none, "u", none, 1⟩

def c3Camp : Campaign := ⟨300, "C3", "u"⟩

def c3Zero : Asset :=
  ⟨32, "z", "IMAGE", "http://cdn/z.png", none, some 0, none, "u", some 300, 1⟩

def c3P : Playlist := ⟨33, "p3", "u", "active", [300], [], []⟩

def c3DB : DB := ⟨[c3Camp], [c3Zero], [c3P], []⟩

def c4wCamp : Campaign := ⟨400, "C4w", "u"⟩

def c4wAsset : Asset :=
  ⟨41, "img", "IMAGE", "http://cdn/a.png", none, some 3, none, "u", some 400, 1⟩

def c4wP : Playlist := ⟨40, "p4w", "u", "active", [400], [], []⟩

def c4wDB : DB := ⟨[c4wCamp], [c4wAsset], [c4wP], []⟩

def c4Camp : Campaign := ⟨401, "C4n", "u"⟩

def c4Neg : Asset :=
  ⟨42, "neg", "IMAGE", "http://cdn/n.png", none, some (-5), none, "u", some 401, 1⟩

def c4P : Playlist := ⟨43, "p4n", "u", "active", [401], [], []⟩

def c4DB : DB := ⟨[c4Camp], [c4Neg], [c4P], []⟩

def c6Old : Asset :=
  ⟨9, "old", "IMAGE", "http://cdn/old.png", none, none, none, "u", none, 1⟩

def c6Dir : Asset :=
  ⟨8, "dir", "IMAGE", "http://cdn/dir.png", none, none, none, "u", none, 2⟩

def c6P : Playlist := ⟨60, "p6", "u", "active", [], [8], [⟨some 9, some 5⟩]⟩

def c6DB : DB := ⟨[], [c6Old, c6Dir], [c6P], []⟩

def c7Camp : Campaign := ⟨700, "C7", "u"⟩

def c7A : Asset :=
  ⟨71, "a", "IMAGE", "http://cdn/7.png", none, none, none, "u", some 700, 1⟩

def c7P : Playlist := ⟨70, "p7", "u", "inactive", [700], [71], []⟩

def c7DB : DB := ⟨[c7Camp], [c7A], [c7P], [⟨"dev7", some 70⟩]⟩

def c10Camp : Campaign := ⟨110, "C10", "u"⟩

def c10A : Asset :=
  ⟨101, "d", "IMAGE", "http://cdn/d.png", none, none, none, "u", none, 1⟩

def c10DB : DB := ⟨[c10Camp], [c10A], [], []⟩

def c10Body : UpdateAssetBody := ⟨none, none, none, .absent, .absent, .absent, .val 110⟩

/-! ## Claim C1 — deduplication

`firstDedup` is the reference description from the spec's words: keep
each id at its *first* occurrence, drop later duplicates.  The theorem
compares the embedded `expandPlaylistAssets` against it. -/

/-- Keep-first-occurrence deduplication of an id sequence, relative to a
set of ids already seen. -/
def firstDedup (seen : List Nat) : List Nat → List Nat
  | [] => []
  | x :: xs => if x ∈ seen then firstDedup seen xs
               else x :: firstDedup (x :: seen) xs

/-- The ids a campaign reference contributes to the rich expansion: none
when the campaign is missing (silent skip), otherwise its assets'
ids oldest-first. -/
def campaignBlockIds (db : DB) (cid : Nat) : List Nat :=
  match findCampaign db cid with
  | none => []
  | some _ => (assetsByCampaign db cid).map (fun a => a._id)

/-- The full campaign-then-direct reference sequence the rich expansion
visits, before deduplication. -/
def richRefIds (db : DB) (p : Playlist) : List Nat :=
  p.campaignIds.flatMap (campaignBlockIds db)
  ++ (assetsByIds db p.assetIds).map (fun a => a._id)

def c1Camp : Campaign := ⟨100, "C1", "u"⟩

def c1A : Asset :=
  ⟨11, "a", "IMAGE", "http://cdn/1.png", none, none, none, "u", some 100, 1⟩

def c1wP : Playlist := ⟨12, "p1w", "u", "active", [100, 100], [11], []⟩

def c1wDB : DB := ⟨[c1Camp], [c1A], [c1wP], []⟩

def c1P : Playlist := ⟨10, "p1", "u", "active", [100, 100], [], []⟩

def c1DB : DB := ⟨[c1Camp], [c1A], [c1P], []⟩

/-! ## Claim C2 — ordering -/

/-- Oldest-first order on assets (the `sort({ createdAt: 1 })` order). -/
def createdLE (a b : Asset) : Prop := a.createdAt ≤ b.createdAt

def c2A : Campaign := ⟨200, "A", "u"⟩

def c2B : Campaign := ⟨201, "B", "u"⟩

def c2a1 : Asset :=
  ⟨21, "a1", "IMAGE", "http://cdn/a1.png", none, none, none, "u", some 200, 1⟩

def c2a2 : Asset :=
  ⟨22, "a2", "IMAGE", "http://cdn/a2.png", none, none, none, "u", some 200, 2⟩

def c2b1 : Asset :=
  ⟨23, "b1", "IMAGE", "http://cdn/b1.png", none, none, none, "u", some 201, 3⟩

def c2d1 : Asset :=
  ⟨24, "d1", "IMAGE", "http://cdn/d1.png", none, none, none, "u", none, 9⟩

def c2d2 : Asset :=
  ⟨25, "d2", "IMAGE", "http://cdn/d2.png", none, none, none, "u", none, 8⟩

def c2P : Playlist := ⟨20, "p2", "u", "active", [200, 201], [24, 25], []⟩

def c2DB : DB := ⟨[c2A, c2B], [c2a1, c2a2, c2b1, c2d1, c2d2], [c2P], []⟩

def c2xd1 : Asset :=
  ⟨26, "d1", "IMAGE", "http://cdn/x1.png", none, none, none, "u", none, 9⟩

def c2xd2 : Asset :=
  ⟨27, "d2", "IMAGE", "http://cdn/x2.png", none, none, none, "u", none, 8⟩

def c2xP : Playlist := ⟨28, "p2x", "u", "active", [], [26, 27], []⟩

def c2xDB : DB := ⟨[], [c2xd1, c2xd2], [c2xP], []⟩

def c5Camp : Campaign := ⟨500, "C5", "u"⟩

def c5H : Asset :=
  ⟨51, "h", "HTML", "http://cdn/h.html", none, none, none, "u", some 500, 1⟩

def c5P : Playlist := ⟨50, "p5", "u", "active", [500], [], []⟩

def c5DB : DB := ⟨[c5Camp], [c5H], [c5P], []⟩

/-! ## Claim C8 — campaign capacity (at most 9 assets per campaign) -/

def countList (l : List Asset) (cid : Nat) : Nat :=
  (l.filter (fun a => a.campaignId = some cid)).length

def c8Camp : Campaign := ⟨800, "C8", "u"⟩

def c8Assets : List Asset :=
  (List.range 9).map (fun i =>
    ⟨i + 1, "a", "IMAGE", "http://cdn/a.png", none, none, none, "u", some 800, i⟩)

def c8DB : DB := ⟨[c8Camp], c8Assets, [], []⟩

def c8Body : CreateAssetBody :=
  ⟨"tenth", "IMAGE", "http://cdn/t.png", none, none, none, "u", some 800⟩

def c9Camps : List Campaign := (List.range 8).map (fun i => ⟨i + 900, "c", "u"⟩)

def c9P : Playlist :=
  ⟨90, "p9", "u", "active", (List.range 7).map (fun i => i + 900), [], []⟩

def c9DB : DB := ⟨c9Camps, [], [c9P], []⟩

/-! ## Theorems -/

/-! ## Lemmas: structure of the player expansion -/

theorem foldl_pushFlat {β : Type} (g : β → Option FlatAsset) (l : List β) :
    ∀ acc : List FlatAsset,
      l.foldl (fun acc b => pushFlat acc (g b)) acc = acc ++ l.filterMap g := by
  induction l with
  | nil => intro acc; simp
  | cons b l ih =>
    intro acc
    simp only [List.foldl_cons]
    cases h : g b with
    | none =>
      rw [show pushFlat acc none = acc from rfl, ih, List.filterMap_cons, h]
    | some v =>
      rw [show pushFlat acc (some v) = acc ++ [v] from rfl, ih,
        List.filterMap_cons, h, List.append_assoc, List.singleton_append]

theorem playerLegacy_eq (db : DB) (items : List LegacyItem) :
    playerLegacy db items = items.filterMap (legacyResolve db) := by
  have hfun : (fun (acc : List FlatAsset) (it : LegacyItem) =>
      match it.assetId with
      | none => acc
      | some aid =>
        match findAsset db aid with
        | none => acc
        | some a => pushFlat acc (formatAsset a it.duration))
      = fun acc it => pushFlat acc (legacyResolve db it) := by
    funext acc it
    cases hid : it.assetId with
    | none => simp [legacyResolve, hid, pushFlat]
    | some aid =>
      cases hfd : findAsset db aid with
      | none => simp [legacyResolve, hid, hfd, pushFlat]
      | some a => simp [legacyResolve, hid, hfd]
  unfold playerLegacy
  rw [hfun, foldl_pushFlat]
  simp

theorem playerPhase12_eq (db : DB) (p : Playlist) :
    playerPhase12 db p =
      p.campaignIds.flatMap
        (fun cid => (assetsByCampaign db cid).filterMap (fun a => formatAsset a none))
      ++ (assetsByIds db p.assetIds).filterMap (fun a => formatAsset a none) := by
  have camp : ∀ (cids : List Nat) (acc : List FlatAsset),
      cids.foldl
        (fun acc cid =>
          (assetsByCampaign db cid).foldl
            (fun acc a => pushFlat acc (formatAsset a none)) acc) acc
      = acc ++ cids.flatMap
          (fun cid => (assetsByCampaign db cid).filterMap (fun a => formatAsset a none)) := by
    intro cids
    induction cids with
    | nil => intro acc; simp
    | cons c cs ih =>
      intro acc
      rw [List.foldl_cons, foldl_pushFlat, ih, List.flatMap_cons, List.append_assoc]
  unfold playerPhase12
  rw [foldl_pushFlat, camp, List.nil_append]

/-- Everything `formatAsset` lets through: the id is the asset's, the
type is the lowercased media type and is image/video, the url is the
trimmed stored url and is non-empty, and the duration is the clamped
`??`-chain. -/
theorem formatAsset_some (a : Asset) (ov : Option Int) (f : FlatAsset)
    (h : formatAsset a ov = some f) :
    f.assetId = a._id ∧ (f.type = "image" ∨ f.type = "video") ∧
    f.url = jsTrim a.url ∧ f.url ≠ "" ∧
    f.duration = max 0 (ov.getD (a.duration.getD (if a.type = "VIDEO" then 0 else 10))) ∧
    0 ≤ f.duration := by
  unfold formatAsset at h
  by_cases h1 : a.type = "" ∨ a.url = ""
  · rw [if_pos h1] at h; cases h
  · rw [if_neg h1] at h
    by_cases h2 : jsToLower a.type ≠ "image" ∧ jsToLower a.type ≠ "video"
    · rw [if_pos h2] at h; cases h
    · rw [if_neg h2] at h
      by_cases h3 : jsTrim a.url = ""
      · rw [if_pos h3] at h; cases h
      · rw [if_neg h3] at h
        rw [Option.some.injEq] at h
        subst h
        refine ⟨rfl, ?_, rfl, h3, rfl, le_max_left 0 _⟩
        by_cases h4 : jsToLower a.type = "image"
        · exact Or.inl h4
        · right
          by_contra h5
          exact h2 ⟨h4, h5⟩

/-- Any item emitted by either player endpoint's item computation came
out of `formatAsset`. -/
theorem mem_playerExpandItems {db : DB} {p : Playlist} {f : FlatAsset}
    (h : f ∈ playerExpandItems db p) : ∃ a ov, formatAsset a ov = some f := by
  simp only [playerExpandItems] at h
  split at h
  · rw [playerLegacy_eq] at h
    obtain ⟨it, _, hit⟩ := List.mem_filterMap.1 h
    unfold legacyResolve at hit
    rw [Option.bind_eq_some] at hit
    obtain ⟨aid, _, hit⟩ := hit
    rw [Option.bind_eq_some] at hit
    obtain ⟨a, _, hit⟩ := hit
    exact ⟨a, it.duration, hit⟩
  · rw [playerPhase12_eq] at h
    rcases List.mem_append.1 h with h | h
    · obtain ⟨cid, _, h⟩ := List.mem_flatMap.1 h
      obtain ⟨a, _, ha⟩ := List.mem_filterMap.1 h
      exact ⟨a, none, ha⟩
    · obtain ⟨a, _, ha⟩ := List.mem_filterMap.1 h
      exact ⟨a, none, ha⟩

/-! ## Claim C3 — effective duration policy -/

/-- Claim C3 (amended): in the player (strict) expansion the duration is
the nullish chain `override ?? asset.duration ?? (VIDEO ? 0 : 10)` under
a `≥ 0` clamp, so a stored non-negative duration — including an explicit
0 — is preserved and an override takes precedence; in the rich expansion
(`expandPlaylistAssets`) the `||`-default replaces a falsy stored
duration, so an explicit 0 becomes the type default (10 for non-video),
and in its legacy branch a 0 override falls back to the asset duration. -/
theorem claim3_duration_policy (a : Asset) (it : LegacyItem) (f : FlatAsset) (d : Int) :
    (formatAsset a none = some f → a.duration = some d → 0 ≤ d → f.duration = d) ∧
    (formatAsset a none = some f → a.duration = none →
      f.duration = if a.type = "VIDEO" then 0 else 10) ∧
    (formatAsset a (some d) = some f → 0 ≤ d → f.duration = d) ∧
    ((a.duration = some 0 ∨ a.duration = none) →
      (richOfAsset a).duration = some (if a.type = "VIDEO" then 0 else 10)) ∧
    (a.duration = some d → d ≠ 0 → (richOfAsset a).duration = some d) ∧
    (it.duration = some d → d ≠ 0 → (richOfLegacy a it).duration = some d) ∧
    (it.duration = some 0 → (richOfLegacy a it).duration = a.duration) := by
  refine ⟨?_, ?_, ?_, ?_, ?_, ?_, ?_⟩
  · intro hf hd h0
    have := (formatAsset_some a none f hf).2.2.2.2.1
    rw [this, hd]
    simp [max_eq_right h0]
  · intro hf hd
    have := (formatAsset_some a none f hf).2.2.2.2.1
    rw [this, hd]
    by_cases hv : a.type = "VIDEO" <;> simp [hv]
  · intro hf h0
    have := (formatAsset_some a (some d) f hf).2.2.2.2.1
    rw [this]
    simp [max_eq_right h0]
  · rintro (hd | hd) <;> simp [richOfAsset, jsOrNum, hd]
  · intro hd hne
    simp [richOfAsset, jsOrNum, hd, hne]
  · intro hd hne
    simp [richOfLegacy, jsNumOr, hd, hne]
  · intro hd
    simp [richOfLegacy, jsNumOr, hd]

/-- Witness for C3: an image with an explicit stored duration of 7 is
emitted with duration 7 by the player formatter. -/
theorem claim3_duration_policy_witness :
    (⟨31, "image", "http://cdn/i.png", 7⟩ : FlatAsset).duration = 7 :=
  (claim3_duration_policy c3wAsset ⟨none, none⟩ ⟨31, "image", "http://cdn/i.png", 7⟩ 7).1
    (by decide) (by decide) (by decide)

/-- Counterexample to C3 as stated: an image asset stored with an
explicit duration of 0 is emitted by the rich expansion with duration
10 — the explicit 0 is replaced. -/
theorem claim3_counterexample :
    c3Zero.duration = some 0 ∧
    (expandPlaylistAssets c3DB c3P).map (fun r => r.duration) = [some 10] := by
  exact ⟨by decide, by decide⟩

/-! ## Claim C4 — duration clamping -/

/-- Claim C4 (amended): every item emitted by the player (strict)
endpoints carries a clamped, non-negative duration; the rich/nested
expansion does not clamp (see the counterexample). -/
theorem claim4_player_duration_clamped (db : DB) (p : Playlist) (f : FlatAsset)
    (h : f ∈ playerExpandItems db p) : 0 ≤ f.duration := by
  obtain ⟨a, ov, ha⟩ := mem_playerExpandItems h
  exact (formatAsset_some a ov f ha).2.2.2.2.2

/-- Witness for C4: a concrete emitted player item has duration `≥ 0`. -/
theorem claim4_player_duration_clamped_witness :
    (0 : Int) ≤ (⟨41, "image", "http://cdn/a.png", 3⟩ : FlatAsset).duration :=
  claim4_player_duration_clamped c4wDB c4wP ⟨41, "image", "http://cdn/a.png", 3⟩
    (by decide)

/-- Counterexample to C4 as stated: the rich expansion carries a stored
negative duration through unclamped. -/
theorem claim4_counterexample :
    (expandPlaylistAssets c4DB c4P).map (fun r => r.duration) = [some (-5)] ∧
    (expandPlaylistAssets c4DB c4P).any (fun r => decide (r.duration.getD 0 < 0)) = true := by
  exact ⟨by decide, by decide⟩

/-! ## Claim C6 — legacy fallback fires iff steps 5–6 emitted nothing -/

/-- Claim C6: in both expansion engines, the legacy `items` branch is
taken exactly when the campaign-plus-direct phase produced zero items
and the legacy list is non-empty; each legacy item is resolved through
the asset store with its per-item duration override. -/
theorem claim6_legacy_fallback (db : DB) (p : Playlist) :
    (playerPhase12 db p ≠ [] → playerExpandItems db p = playerPhase12 db p) ∧
    (p.items = [] → playerExpandItems db p = playerPhase12 db p) ∧
    (playerPhase12 db p = [] → p.items ≠ [] →
      playerExpandItems db p = p.items.filterMap (legacyResolve db)) ∧
    ((richPhase12 db p).2 ≠ [] → expandPlaylistAssets db p = (richPhase12 db p).2) ∧
    (p.items = [] → expandPlaylistAssets db p = (richPhase12 db p).2) ∧
    ((richPhase12 db p).2 = [] → p.items ≠ [] →
      expandPlaylistAssets db p = (richLegacyFold db p.items (richPhase12 db p)).2) := by
  refine ⟨?_, ?_, ?_, ?_, ?_, ?_⟩
  · intro h
    simp only [playerExpandItems]
    rw [if_neg]
    rintro ⟨h1, -⟩
    exact h (List.isEmpty_iff.mp h1)
  · intro h
    simp only [playerExpandItems]
    rw [if_neg]
    rintro ⟨-, h2⟩
    exact h2 (by simp [h])
  · intro h1 h2
    simp only [playerExpandItems]
    rw [if_pos ⟨by simp [h1], by simpa using h2⟩, playerLegacy_eq]
  · intro h
    simp only [expandPlaylistAssets]
    rw [if_neg]
    rintro ⟨h1, -⟩
    exact h (List.isEmpty_iff.mp h1)
  · intro h
    simp only [expandPlaylistAssets]
    rw [if_neg]
    rintro ⟨-, h2⟩
    exact h2 (by simp [h])
  · intro h1 h2
    simp only [expandPlaylistAssets]
    rw [if_pos ⟨by simp [h1], by simpa using h2⟩]

/-- Witness for C6 (the spec's end-to-end scenario): one resolvable
direct asset plus a non-empty legacy list — only the direct asset is
emitted, the legacy item is skipped. -/
theorem claim6_witness :
    playerExpandItems c6DB c6P = playerPhase12 c6DB c6P ∧
    (playerExpandItems c6DB c6P).map (fun f => f.assetId) = [8] :=
  ⟨(claim6_legacy_fallback c6DB c6P).1 (by decide), by decide⟩

/-! ## Claim C7 — inactive playlists expand to an empty 200 response -/

/-- Claim C7: a stored playlist with status `"inactive"` makes both
player endpoints answer HTTP 200 with an empty item list, regardless of
its campaign and asset references. -/
theorem claim7_inactive_ok (db : DB) (pid : Nat) (p : Playlist)
    (hfind : findPlaylist db pid = some p) (hst : p.status = "inactive") :
    getPlayerPlaylistById db pid = .ok p._id [] ∧
    (getPlayerPlaylistById db pid).status = 200 ∧
    (∀ did? : Option String, getPlayerPlaylist db (some pid) did? = .ok p._id []) ∧
    (∀ did d, findDisplay db did = some d → d.playlistId = some pid →
      getPlayerPlaylist db none (some did) = .ok p._id [] ∧
      (getPlayerPlaylist db none (some did)).status = 200) := by
  have h1 : getPlayerPlaylistById db pid = .ok p._id [] := by
    simp [getPlayerPlaylistById, hfind, hst]
  have h3 : ∀ did? : Option String, getPlayerPlaylist db (some pid) did? = .ok p._id [] := by
    intro did?
    simp [getPlayerPlaylist, hfind, hst]
  refine ⟨h1, by rw [h1]; rfl, h3, ?_⟩
  intro did d hd hdp
  have h4 : getPlayerPlaylist db none (some did) = .ok p._id [] := by
    simp [getPlayerPlaylist, hd, hdp, hfind, hst]
  exact ⟨h4, by rw [h4]; rfl⟩

/-- Witness for C7: a concrete inactive playlist with campaign and asset
references answers 200/empty on both endpoints (including device
resolution). -/
theorem claim7_witness :
    getPlayerPlaylistById c7DB 70 = .ok 70 [] ∧
    getPlayerPlaylist c7DB none (some "dev7") = .ok 70 [] := by
  have h := claim7_inactive_ok c7DB 70 c7P (by decide) (by decide)
  exact ⟨h.1, (h.2.2.2 "dev7" ⟨"dev7", some 70⟩ (by decide) (by decide)).1⟩

/-! ## Claim C10 — PUT /assets/:id on a direct asset with a campaignId -/

/-- Claim C10: a `PUT /assets/:id` body carrying a truthy `campaignId`
while the stored asset is direct (`campaignId = null`) makes the handler
dereference `null` and throw before any validation or write; the catch
maps it to HTTP 500 and the store is unchanged — a direct asset can
never be moved into a campaign through this route. -/
theorem claim10_put_direct_asset_500 (db : DB) (id : Nat) (body : UpdateAssetBody)
    (a : Asset) (cid : Nat) (hfind : findAsset db id = some a)
    (hdir : a.campaignId = none) (hbody : body.campaignId = .val cid) :
    updateAsset db id body = ⟨500, db⟩ := by
  simp [updateAsset, hfind, hbody, hdir]

/-- Witness for C10: concretely, updating direct asset 101 with
`campaignId = 110` answers 500 and leaves the store unchanged. -/
theorem claim10_witness : updateAsset c10DB 101 c10Body = ⟨500, c10DB⟩ :=
  claim10_put_direct_asset_500 c10DB 101 c10Body c10A 110 (by decide) (by decide)
    (by decide)

theorem firstDedup_congr : ∀ {l s t : List Nat},
    (∀ x, x ∈ s ↔ x ∈ t) → firstDedup s l = firstDedup t l := by
  intro l
  induction l with
  | nil => intro s t _; rfl
  | cons x xs ih =>
    intro s t h
    by_cases hx : x ∈ s
    · rw [firstDedup, firstDedup, if_pos hx, if_pos ((h x).1 hx)]
      exact ih h
    · rw [firstDedup, firstDedup, if_neg hx, if_neg (fun hc => hx ((h x).2 hc))]
      congr 1
      exact ih (fun y => by simp only [List.mem_cons, h y])

theorem mem_firstDedup : ∀ {l s : List Nat} {x : Nat},
    x ∈ firstDedup s l ↔ x ∈ l ∧ x ∉ s := by
  intro l
  induction l with
  | nil => intro s x; simp [firstDedup]
  | cons y ys ih =>
    intro s x
    by_cases hy : y ∈ s
    · rw [firstDedup, if_pos hy, ih]
      simp only [List.mem_cons]
      constructor
      · rintro ⟨h1, h2⟩
        exact ⟨Or.inr h1, h2⟩
      · rintro ⟨h1 | h1, h2⟩
        · exact absurd (by rw [h1]; exact hy) h2
        · exact ⟨h1, h2⟩
    · rw [firstDedup, if_neg hy]
      simp only [List.mem_cons, ih]
      constructor
      · rintro (rfl | ⟨h1, h2⟩)
        · exact ⟨Or.inl rfl, hy⟩
        · exact ⟨Or.inr h1, fun hc => h2 (Or.inr hc)⟩
      · rintro ⟨h1 | h1, h2⟩
        · exact Or.inl h1
        · by_cases hxy : x = y
          · exact Or.inl hxy
          · exact Or.inr ⟨h1, by simp [List.mem_cons, hxy, h2]⟩

theorem nodup_firstDedup : ∀ (l s : List Nat), (firstDedup s l).Nodup := by
  intro l
  induction l with
  | nil => intro s; simp [firstDedup]
  | cons y ys ih =>
    intro s
    by_cases hy : y ∈ s
    · rw [firstDedup, if_pos hy]
      exact ih s
    · rw [firstDedup, if_neg hy]
      refine List.nodup_cons.mpr ⟨?_, ih _⟩
      intro hc
      exact (mem_firstDedup.mp hc).2 (List.mem_cons_self y s)

theorem firstDedup_append : ∀ (l₁ l₂ s s' : List Nat),
    (∀ x, x ∈ s' ↔ x ∈ s ∨ x ∈ l₁) →
    firstDedup s (l₁ ++ l₂) = firstDedup s l₁ ++ firstDedup s' l₂ := by
  intro l₁
  induction l₁ with
  | nil =>
    intro l₂ s s' h
    rw [List.nil_append, firstDedup, List.nil_append]
    exact firstDedup_congr (fun x =>
      ⟨fun hx => (h x).2 (Or.inl hx),
       fun hx => ((h x).1 hx).resolve_right (by simp)⟩) |>.symm ▸ rfl
  | cons y ys ih =>
    intro l₂ s s' h
    by_cases hy : y ∈ s
    · rw [List.cons_append, firstDedup, if_pos hy, firstDedup, if_pos hy]
      refine ih l₂ s s' (fun x => (h x).trans ?_)
      constructor
      · rintro (hx | hx)
        · exact Or.inl hx
        · rcases List.mem_cons.mp hx with rfl | hx
          · exact Or.inl hy
          · exact Or.inr hx
      · rintro (hx | hx)
        · exact Or.inl hx
        · exact Or.inr (List.mem_cons_of_mem _ hx)
    · rw [List.cons_append, firstDedup, if_neg hy, firstDedup, if_neg hy,
        List.cons_append]
      congr 1
      refine ih l₂ (y :: s) s' (fun x => (h x).trans ?_)
      simp only [List.mem_cons]
      tauto

theorem firstDedup_nil_iff (l : List Nat) : firstDedup [] l = [] ↔ l = [] := by
  cases l with
  | nil => simp [firstDedup]
  | cons x xs => simp [firstDedup]

theorem foldl_pushDedup (l : List Asset) : ∀ (st : List Nat × List RichItem),
    ((l.foldl pushDedup st).2.map (fun r => r.assetId)
      = st.2.map (fun r => r.assetId) ++ firstDedup st.1 (l.map (fun a => a._id)))
    ∧ (∀ x, x ∈ (l.foldl pushDedup st).1 ↔ x ∈ st.1 ∨ x ∈ l.map (fun a => a._id)) := by
  induction l with
  | nil => intro st; simp [firstDedup]
  | cons a l ih =>
    intro st
    rw [List.foldl_cons]
    by_cases ha : a._id ∈ st.1
    · have hps : pushDedup st a = st := by simp [pushDedup, ha]
      rw [hps]
      obtain ⟨ih1, ih2⟩ := ih st
      refine ⟨?_, ?_⟩
      · rw [ih1, List.map_cons, firstDedup, if_pos ha]
      · intro x
        rw [ih2 x, List.map_cons]
        simp only [List.mem_cons]
        constructor
        · rintro (hx | hx)
          · exact Or.inl hx
          · exact Or.inr (Or.inr hx)
        · rintro (hx | rfl | hx)
          · exact Or.inl hx
          · exact Or.inl ha
          · exact Or.inr hx
    · have hps : pushDedup st a = (a._id :: st.1, st.2 ++ [richOfAsset a]) := by
        simp [pushDedup, ha]
      rw [hps]
      obtain ⟨ih1, ih2⟩ := ih (a._id :: st.1, st.2 ++ [richOfAsset a])
      refine ⟨?_, ?_⟩
      · rw [ih1, List.map_cons, firstDedup, if_neg ha]
        simp [richOfAsset]
      · intro x
        rw [ih2 x]
        simp only [List.mem_cons, List.map_cons, List.mem_append,
          List.mem_singleton]
        tauto

theorem foldl_campaignStep (db : DB) (cids : List Nat) :
    ∀ (st : List Nat × List RichItem),
    ((cids.foldl (campaignStep db) st).2.map (fun r => r.assetId)
      = st.2.map (fun r => r.assetId)
        ++ firstDedup st.1 (cids.flatMap (campaignBlockIds db)))
    ∧ (∀ x, x ∈ (cids.foldl (campaignStep db) st).1
        ↔ x ∈ st.1 ∨ x ∈ cids.flatMap (campaignBlockIds db)) := by
  induction cids with
  | nil => intro st; simp [firstDedup]
  | cons c cs ih =>
    intro st
    rw [List.foldl_cons, List.flatMap_cons]
    cases hc : findCampaign db c with
    | none =>
      have hstep : campaignStep db st c = st := by simp [campaignStep, hc]
      have hblock : campaignBlockIds db c = [] := by simp [campaignBlockIds, hc]
      rw [hstep, hblock, List.nil_append]
      exact ih st
    | some camp =>
      have hstep : campaignStep db st c = (assetsByCampaign db c).foldl pushDedup st := by
        simp [campaignStep, hc]
      have hblock : campaignBlockIds db c
          = (assetsByCampaign db c).map (fun a => a._id) := by
        simp [campaignBlockIds, hc]
      rw [hstep, hblock]
      obtain ⟨p1, p2⟩ := foldl_pushDedup (assetsByCampaign db c) st
      obtain ⟨i1, i2⟩ := ih ((assetsByCampaign db c).foldl pushDedup st)
      refine ⟨?_, ?_⟩
      · rw [i1, p1, List.append_assoc]
        congr 1
        exact (firstDedup_append _ _ _ _ p2).symm
      · intro x
        rw [i2 x, p2 x]
        simp only [List.mem_append]
        tauto

theorem richPhase12_ids (db : DB) (p : Playlist) :
    (richPhase12 db p).2.map (fun r => r.assetId)
      = firstDedup [] (richRefIds db p) := by
  unfold richPhase12 richRefIds
  obtain ⟨c1, c2⟩ := foldl_campaignStep db p.campaignIds ([], [])
  obtain ⟨p1, _⟩ :=
    foldl_pushDedup (assetsByIds db p.assetIds)
      (p.campaignIds.foldl (campaignStep db) ([], []))
  rw [p1, c1]
  simp only [List.map_nil, List.nil_append]
  rw [firstDedup_append _ _ [] _ c2]

/-- When the playlist has any resolvable campaign/direct reference the
legacy branch cannot fire, and the rich expansion's id sequence is the
keep-first dedup of the reference sequence. -/
theorem expandPlaylistAssets_ids (db : DB) (p : Playlist)
    (hne : richRefIds db p ≠ []) :
    (expandPlaylistAssets db p).map (fun r => r.assetId)
      = firstDedup [] (richRefIds db p) := by
  have hids := richPhase12_ids db p
  have hout : (richPhase12 db p).2 ≠ [] := by
    intro h0
    rw [h0] at hids
    exact hne ((firstDedup_nil_iff _).mp hids.symm)
  have hexp : expandPlaylistAssets db p = (richPhase12 db p).2 := by
    simp only [expandPlaylistAssets]
    rw [if_neg]
    rintro ⟨h1, -⟩
    exact hout (List.isEmpty_iff.mp h1)
  rw [hexp, hids]

/-- Claim C1 (amended): the rich expansion (`expandPlaylistAssets`,
behind `GET /playlists/:id`) emits each referenced asset exactly once,
at the position of its first occurrence in campaign-then-direct order —
its id sequence is the keep-first dedup of the reference sequence, and
is duplicate-free.  The flattened player endpoints keep no dedup set and
emit every occurrence (see the counterexample). -/
theorem claim1_rich_dedup (db : DB) (p : Playlist)
    (h : ¬ (richRefIds db p).Nodup) :
    (expandPlaylistAssets db p).map (fun r => r.assetId)
      = firstDedup [] (richRefIds db p)
    ∧ ((expandPlaylistAssets db p).map (fun r => r.assetId)).Nodup := by
  have hne : richRefIds db p ≠ [] := by
    intro hnil
    exact h (hnil ▸ List.nodup_nil)
  rw [expandPlaylistAssets_ids db p hne]
  exact ⟨rfl, nodup_firstDedup _ _⟩

/-- Witness for C1: a playlist referencing asset 11 three times (twice
via the duplicated campaign, once directly) — the rich expansion emits
it once, at its first position. -/
theorem claim1_rich_dedup_witness :
    (expandPlaylistAssets c1wDB c1wP).map (fun r => r.assetId)
      = firstDedup [] (richRefIds c1wDB c1wP)
    ∧ ((expandPlaylistAssets c1wDB c1wP).map (fun r => r.assetId)).Nodup :=
  claim1_rich_dedup c1wDB c1wP (by decide)

/-- Counterexample to C1 as stated: the same playlist shape makes the
flattened player expansion emit asset 11 twice — the player entry points
do not deduplicate. -/
theorem claim1_counterexample :
    (playerExpandItems c1DB c1P).map (fun f => f.assetId) = [11, 11] ∧
    ¬ ((playerExpandItems c1DB c1P).map (fun f => f.assetId)).Nodup := by
  exact ⟨by decide, by decide⟩

theorem mem_insertByCreatedAt {x a : Asset} : ∀ {l : List Asset},
    x ∈ insertByCreatedAt a l ↔ x = a ∨ x ∈ l := by
  intro l
  induction l with
  | nil => simp [insertByCreatedAt]
  | cons b bs ih =>
    rw [insertByCreatedAt]
    by_cases hc : a.createdAt < b.createdAt
    · rw [if_pos hc]
      simp only [List.mem_cons]
    · rw [if_neg hc]
      simp only [List.mem_cons, ih]
      tauto

theorem pairwise_insertByCreatedAt {a : Asset} : ∀ {l : List Asset},
    l.Pairwise createdLE → (insertByCreatedAt a l).Pairwise createdLE := by
  intro l
  induction l with
  | nil => intro _; simp [insertByCreatedAt]
  | cons b bs ih =>
    intro hp
    rw [List.pairwise_cons] at hp
    obtain ⟨hb, hbs⟩ := hp
    rw [insertByCreatedAt]
    by_cases hc : a.createdAt < b.createdAt
    · rw [if_pos hc]
      refine List.pairwise_cons.mpr ⟨?_, List.pairwise_cons.mpr ⟨hb, hbs⟩⟩
      intro y hy
      rcases List.mem_cons.mp hy with rfl | hy
      · exact le_of_lt hc
      · exact le_trans (le_of_lt hc) (hb y hy)
    · rw [if_neg hc]
      refine List.pairwise_cons.mpr ⟨?_, ih hbs⟩
      intro y hy
      rcases mem_insertByCreatedAt.mp hy with rfl | hy
      · exact Nat.le_of_not_lt hc
      · exact hb y hy

theorem pairwise_sortByCreatedAt (l : List Asset) :
    (sortByCreatedAt l).Pairwise createdLE := by
  unfold sortByCreatedAt
  induction l with
  | nil => simp
  | cons a l ih =>
    rw [List.foldr_cons]
    exact pairwise_insertByCreatedAt ih

/-- Claim C2 (amended): the player expansion emits campaign assets as
contiguous blocks in `campaignIds` list order, each block sorted
oldest-first by creation time, followed by the direct assets — which are
likewise sorted oldest-first by creation time, NOT in `assetIds` list
order (see the counterexample). -/
theorem claim2_expansion_order (db : DB) (p : Playlist)
    (h : playerPhase12 db p ≠ [] ∨ p.items = []) :
    playerExpandItems db p
      = p.campaignIds.flatMap
          (fun cid => (assetsByCampaign db cid).filterMap (fun a => formatAsset a none))
        ++ (assetsByIds db p.assetIds).filterMap (fun a => formatAsset a none)
    ∧ (∀ cid, (assetsByCampaign db cid).Pairwise createdLE)
    ∧ (assetsByIds db p.assetIds).Pairwise createdLE := by
  have heq : playerExpandItems db p = playerPhase12 db p := by
    simp only [playerExpandItems]
    rw [if_neg]
    rintro ⟨h1, h2⟩
    rcases h with h | h
    · exact h (List.isEmpty_iff.mp h1)
    · exact h2 (by simp [h])
  rw [heq, playerPhase12_eq]
  exact ⟨rfl, fun cid => pairwise_sortByCreatedAt _, pairwise_sortByCreatedAt _⟩

/-- Witness for C2: the spec's example — campaigns `[A, B]` with A
holding `[a1, a2]` and B holding `[b1]` yield `[a1, a2, b1, …]`; the
trailing direct assets come out in creation order (25 before 24). -/
theorem claim2_expansion_order_witness :
    playerExpandItems c2DB c2P
      = c2P.campaignIds.flatMap
          (fun cid => (assetsByCampaign c2DB cid).filterMap (fun a => formatAsset a none))
        ++ (assetsByIds c2DB c2P.assetIds).filterMap (fun a => formatAsset a none)
    ∧ (playerExpandItems c2DB c2P).map (fun f => f.assetId) = [21, 22, 23, 25, 24] :=
  ⟨(claim2_expansion_order c2DB c2P (Or.inl (by decide))).1, by decide⟩

/-- Counterexample to C2 as stated: `assetIds = [26, 27]` but both
expansions emit `[27, 26]` — direct assets follow database creation
order, not the `assetIds` list order. -/
theorem claim2_counterexample :
    c2xP.assetIds = [26, 27] ∧
    (playerExpandItems c2xDB c2xP).map (fun f => f.assetId) = [27, 26] ∧
    (expandPlaylistAssets c2xDB c2xP).map (fun r => r.assetId) = [27, 26] := by
  exact ⟨by decide, by decide, by decide⟩

/-! ## Claim C5 — strict player format filtering -/

/-- Claim C5: the strict player output only ever carries items with
lowercase type `"image"`/`"video"` and a non-empty url; `formatAsset`
drops any other media type (HTML, URL, …) and any empty-url asset; the
rich expansion performs no such filtering — every asset of an existing
referenced campaign is present in its output. -/
theorem claim5_strict_filtering (db : DB) (p : Playlist) (a : Asset) (c : Nat) :
    (∀ f ∈ playerExpandItems db p, (f.type = "image" ∨ f.type = "video") ∧ f.url ≠ "") ∧
    (jsToLower a.type ≠ "image" → jsToLower a.type ≠ "video" →
      ∀ ov, formatAsset a ov = none) ∧
    (jsTrim a.url = "" → ∀ ov, formatAsset a ov = none) ∧
    (c ∈ p.campaignIds → (findCampaign db c).isSome → a ∈ assetsByCampaign db c →
      a._id ∈ (expandPlaylistAssets db p).map (fun r => r.assetId)) := by
  refine ⟨?_, ?_, ?_, ?_⟩
  · intro f hf
    obtain ⟨b, ov, hb⟩ := mem_playerExpandItems hf
    obtain ⟨-, hty, -, hurl, -⟩ := formatAsset_some b ov f hb
    exact ⟨hty, hurl⟩
  · intro h1 h2 ov
    unfold formatAsset
    by_cases h0 : a.type = "" ∨ a.url = ""
    · rw [if_pos h0]
    · rw [if_neg h0, if_pos ⟨h1, h2⟩]
  · intro h3 ov
    unfold formatAsset
    by_cases h0 : a.type = "" ∨ a.url = ""
    · rw [if_pos h0]
    · rw [if_neg h0]
      by_cases h2 : jsToLower a.type ≠ "image" ∧ jsToLower a.type ≠ "video"
      · rw [if_pos h2]
      · rw [if_neg h2, if_pos h3]
  · intro hc hcs ha
    have hmem : a._id ∈ richRefIds db p := by
      unfold richRefIds
      refine List.mem_append.mpr (Or.inl ?_)
      refine List.mem_flatMap.mpr ⟨c, hc, ?_⟩
      unfold campaignBlockIds
      obtain ⟨camp, hcamp⟩ := Option.isSome_iff_exists.mp hcs
      rw [hcamp]
      exact List.mem_map.mpr ⟨a, ha, rfl⟩
    have hne : richRefIds db p ≠ [] := by
      intro h0
      rw [h0] at hmem
      exact absurd hmem (List.not_mem_nil _)
    rw [expandPlaylistAssets_ids db p hne]
    exact mem_firstDedup.mpr ⟨hmem, by simp⟩

/-- Witness for C5: an HTML asset is present in the rich expansion but
dropped by the strict player formatter, so the player output is empty. -/
theorem claim5_strict_filtering_witness :
    51 ∈ (expandPlaylistAssets c5DB c5P).map (fun r => r.assetId) ∧
    formatAsset c5H none = none ∧
    playerExpandItems c5DB c5P = [] :=
  ⟨(claim5_strict_filtering c5DB c5P c5H 500).2.2.2 (by decide) (by decide) (by decide),
   (claim5_strict_filtering c5DB c5P c5H 500).2.1 (by decide) (by decide) none,
   by decide⟩

theorem countAssetsInCampaign_eq (db : DB) (cid : Nat) :
    countAssetsInCampaign db cid = countList db.assets cid := rfl

theorem countList_append (l1 l2 : List Asset) (cid : Nat) :
    countList (l1 ++ l2) cid = countList l1 cid + countList l2 cid := by
  simp [countList, List.filter_append]

theorem countList_cons (a : Asset) (l : List Asset) (cid : Nat) :
    countList (a :: l) cid
      = (if a.campaignId = some cid then 1 else 0) + countList l cid := by
  by_cases h : a.campaignId = some cid
  · simp [countList, List.filter_cons, h]
    omega
  · simp [countList, List.filter_cons, h]

theorem countList_singleton (a : Asset) (cid : Nat) :
    countList [a] cid = (if a.campaignId = some cid then 1 else 0) := by
  rw [countList_cons, show countList ([] : List Asset) cid = 0 from rfl,
    Nat.add_zero]

/-- Appending one asset keeps the capacity invariant as long as the
asset's target campaign (if any) was strictly below the limit. -/
theorem capInv_insert (db : DB) (a : Asset) (hinv : assetCapInv db)
    (hcap : ∀ c, a.campaignId = some c →
      countAssetsInCampaign db c < MAX_ASSETS_PER_CAMPAIGN) :
    assetCapInv { db with assets := db.assets ++ [a] } := by
  intro c
  show countList (db.assets ++ [a]) c ≤ _
  rw [countList_append, countList_singleton]
  by_cases hc : a.campaignId = some c
  · rw [if_pos hc]
    have h1 := hcap c hc
    rw [countAssetsInCampaign_eq] at h1
    omega
  · rw [if_neg hc]
    have h1 := hinv c
    rw [countAssetsInCampaign_eq] at h1
    omega

theorem createAsset_capInv (db : DB) (body : CreateAssetBody) (newId now : Nat)
    (hinv : assetCapInv db) : assetCapInv (createAsset db body newId now).db := by
  unfold createAsset
  split
  · exact hinv
  · split
    · exact hinv
    · split
      · rename_i cid hbody
        split
        · exact hinv
        · split
          · exact hinv
          · rename_i hcap
            refine capInv_insert db _ hinv ?_
            intro c hc
            have hmk : (mkAsset body (some cid) newId now).campaignId = some cid := rfl
            rw [hmk, Option.some.injEq] at hc
            subst hc
            exact lt_of_not_le hcap
      · refine capInv_insert db _ hinv ?_
        intro c hc
        have hmk : (mkAsset body none newId now).campaignId = none := rfl
        rw [hmk] at hc
        cases hc

theorem uploadAsset_capInv (db : DB) (body : UploadBody) (s3ok : Bool)
    (fileUrl thumbUrl : String) (newId now : Nat) (hinv : assetCapInv db) :
    assetCapInv (uploadAsset db body s3ok fileUrl thumbUrl newId now).db := by
  unfold uploadAsset
  split
  · exact hinv
  · cases hfile : body.file with
    | none => simp only [hfile]; exact hinv
    | some file =>
      simp only [hfile]
      split
      · exact hinv
      · cases hmime : getAssetTypeFromMime file.mimetype with
        | none => simp only [hmime]; exact hinv
        | some assetType =>
          simp only [hmime]
          cases hbody : body.campaignId with
          | some cid =>
            simp only [hbody]
            split
            · exact hinv
            · split
              · exact hinv
              · rename_i hcap
                refine capInv_insert db _ hinv ?_
                intro c hc
                have hmk : (mkUploadAsset body file assetType fileUrl thumbUrl
                    newId now).campaignId = body.campaignId := rfl
                rw [hmk, hbody, Option.some.injEq] at hc
                subst hc
                exact lt_of_not_le hcap
          | none =>
            simp only [hbody]
            refine capInv_insert db _ hinv ?_
            intro c hc
            have hmk : (mkUploadAsset body file assetType fileUrl thumbUrl
                newId now).campaignId = body.campaignId := rfl
            rw [hmk, hbody] at hc
            cases hc

theorem map_self {l : List Asset} {g : Asset → Asset} (h : ∀ b ∈ l, g b = b) :
    l.map g = l := by
  induction l with
  | nil => rfl
  | cons a l ih =>
    rw [List.map_cons, h a (by simp), ih (fun b hb => h b (by simp [hb]))]

/-- Splitting the asset collection around the asset a successful
`findById` returned, using uniqueness of ids. -/
theorem findAsset_decomp (db : DB) (id : Nat) (a : Asset)
    (hwf : assetsWF db) (hfind : findAsset db id = some a) :
    ∃ l1 l2, db.assets = l1 ++ a :: l2 ∧ a._id = id ∧
      (∀ b ∈ l1, b._id ≠ id) ∧ (∀ b ∈ l2, b._id ≠ id) := by
  unfold findAsset at hfind
  have hmem : a ∈ db.assets := List.mem_of_find?_eq_some hfind
  have hpa : a._id = id := by simpa using List.find?_some hfind
  obtain ⟨l1, l2, hdecomp⟩ := List.append_of_mem hmem
  have hnd : ((l1 ++ a :: l2).map (fun x => x._id)).Nodup := by
    rw [← hdecomp]
    exact hwf
  rw [List.map_append, List.map_cons, List.nodup_append] at hnd
  refine ⟨l1, l2, hdecomp, hpa, ?_, ?_⟩
  · intro b hb hbid
    refine hnd.2.2 (List.mem_map.mpr ⟨b, hb, rfl⟩) ?_
    rw [hbid, ← hpa]
    exact List.mem_cons_self _ _
  · intro b hb hbid
    have h2 := List.nodup_cons.mp hnd.2.1
    refine h2.1 ?_
    rw [show a._id = b._id by rw [hpa, hbid]]
    exact List.mem_map.mpr ⟨b, hb, rfl⟩

/-- Rewriting one asset in place (the `$set` write) keeps the capacity
invariant as long as any campaign the asset newly joins was strictly
below the limit. -/
theorem capInv_mapUpdate (db : DB) (id : Nat) (u : Asset → Asset) (a : Asset)
    (hwf : assetsWF db) (hfind : findAsset db id = some a)
    (hinv : assetCapInv db)
    (hcap : ∀ c, (u a).campaignId = some c →
      a.campaignId = some c ∨ countAssetsInCampaign db c < MAX_ASSETS_PER_CAMPAIGN) :
    assetCapInv
      { db with assets := db.assets.map (fun b => if b._id = id then u b else b) } := by
  obtain ⟨l1, l2, hd, hpa, hl1, hl2⟩ := findAsset_decomp db id a hwf hfind
  intro c
  show countList (db.assets.map (fun b => if b._id = id then u b else b)) c ≤ _
  rw [hd, List.map_append, List.map_cons,
    map_self (fun b hb => if_neg (hl1 b hb)),
    map_self (fun b hb => if_neg (hl2 b hb)), if_pos hpa,
    countList_append, countList_cons]
  have hbase := hinv c
  rw [countAssetsInCampaign_eq, hd, countList_append, countList_cons] at hbase
  simp only [MAX_ASSETS_PER_CAMPAIGN] at hbase ⊢
  by_cases hc : (u a).campaignId = some c
  · rw [if_pos hc]
    rcases hcap c hc with h1 | h1
    · rw [if_pos h1] at hbase
      omega
    · rw [countAssetsInCampaign_eq, hd, countList_append, countList_cons] at h1
      simp only [MAX_ASSETS_PER_CAMPAIGN] at h1
      by_cases ha : a.campaignId = some c
      · rw [if_pos ha] at hbase h1
        omega
      · rw [if_neg ha] at hbase h1
        omega
  · rw [if_neg hc]
    by_cases ha : a.campaignId = some c
    · rw [if_pos ha] at hbase
      omega
    · rw [if_neg ha] at hbase
      omega

theorem updateAsset_capInv (db : DB) (id : Nat) (body : UpdateAssetBody)
    (hwf : assetsWF db) (hinv : assetCapInv db) :
    assetCapInv (updateAsset db id body).db := by
  have happly : ∀ a, findAsset db id = some a →
      (∀ c, (applyAssetUpdate body a).campaignId = some c →
        a.campaignId = some c ∨ countAssetsInCampaign db c < MAX_ASSETS_PER_CAMPAIGN) →
      assetCapInv (updateAssetApply db id body).db := by
    intro a hfind hcap
    unfold updateAssetApply
    split
    · exact hinv
    · exact capInv_mapUpdate db id (applyAssetUpdate body) a hwf hfind hinv hcap
  have hproj : ∀ a : Asset,
      (applyAssetUpdate body a).campaignId = body.campaignId.apply a.campaignId := by
    intro a
    rfl
  cases hfind : findAsset db id with
  | none =>
    simp only [updateAsset, hfind]
    exact hinv
  | some existing =>
    cases hbody : body.campaignId with
    | absent =>
      simp only [updateAsset, hfind, hbody]
      refine happly existing hfind ?_
      intro c hc
      rw [hproj, hbody] at hc
      exact Or.inl hc
    | null =>
      simp only [updateAsset, hfind, hbody]
      refine happly existing hfind ?_
      intro c hc
      rw [hproj, hbody] at hc
      cases hc
    | val cid =>
      cases hex : existing.campaignId with
      | none =>
        simp only [updateAsset, hfind, hbody, hex]
        exact hinv
      | some c0 =>
        simp only [updateAsset, hfind, hbody, hex]
        split
        · split
          · exact hinv
          · split
            · exact hinv
            · rename_i hcap
              refine happly existing hfind ?_
              intro c hc
              rw [hproj, hbody] at hc
              rw [show JsonField.apply (JsonField.val cid) existing.campaignId
                  = some cid from rfl, Option.some.injEq] at hc
              subst hc
              exact Or.inr (lt_of_not_le hcap)
        · rename_i hne
          refine happly existing hfind ?_
          intro c hc
          rw [hproj, hbody] at hc
          rw [show JsonField.apply (JsonField.val cid) existing.campaignId
              = some cid from rfl, Option.some.injEq] at hc
          subst hc
          left
          rw [hex, Option.some.injEq]
          exact (not_not.mp hne).symm

theorem createAsset_reject (db : DB) (body : CreateAssetBody) (cid newId now : Nat)
    (hbody : body.campaignId = some cid)
    (hfull : MAX_ASSETS_PER_CAMPAIGN ≤ countAssetsInCampaign db cid) :
    (createAsset db body newId now).db = db ∧
    (createAsset db body newId now).status ≠ 201 := by
  unfold createAsset
  split
  · exact ⟨rfl, by simp⟩
  · split
    · exact ⟨rfl, by simp⟩
    · split
      · rename_i x heq
        rw [hbody, Option.some.injEq] at heq
        subst heq
        split
        · exact ⟨rfl, by simp⟩
        · rw [if_pos hfull]
          exact ⟨rfl, by simp⟩
      · rename_i heq
        rw [hbody] at heq
        cases heq

theorem uploadAsset_reject (db : DB) (body : UploadBody) (s3ok : Bool)
    (fileUrl thumbUrl : String) (cid newId now : Nat)
    (hbody : body.campaignId = some cid)
    (hfull : MAX_ASSETS_PER_CAMPAIGN ≤ countAssetsInCampaign db cid) :
    (uploadAsset db body s3ok fileUrl thumbUrl newId now).db = db ∧
    (uploadAsset db body s3ok fileUrl thumbUrl newId now).status ≠ 201 := by
  unfold uploadAsset
  split
  · exact ⟨rfl, by simp⟩
  · split
    · exact ⟨rfl, by simp⟩
    · split
      · exact ⟨rfl, by simp⟩
      · split
        · exact ⟨rfl, by simp⟩
        · split
          · rename_i x heq
            rw [hbody, Option.some.injEq] at heq
            subst heq
            split
            · exact ⟨rfl, by simp⟩
            · rw [if_pos hfull]
              exact ⟨rfl, by simp⟩
          · rename_i heq
            rw [hbody] at heq
            cases heq

theorem updateAsset_reject (db : DB) (id : Nat) (body : UpdateAssetBody)
    (a : Asset) (cid : Nat) (hfind : findAsset db id = some a)
    (hbody : body.campaignId = .val cid) (hne : a.campaignId ≠ some cid)
    (hfull : MAX_ASSETS_PER_CAMPAIGN ≤ countAssetsInCampaign db cid) :
    (updateAsset db id body).db = db ∧ (updateAsset db id body).status ≠ 200 := by
  cases hex : a.campaignId with
  | none =>
    simp only [updateAsset, hfind, hbody, hex]
    exact ⟨by simp, by simp⟩
  | some c0 =>
    have hne0 : cid ≠ c0 := by
      intro h
      exact hne (by rw [hex, h])
    simp only [updateAsset, hfind, hbody, hex]
    rw [if_pos hne0]
    split
    · exact ⟨by simp, by simp⟩
    · rw [if_pos hfull]
      exact ⟨by simp, by simp⟩

/-- Claim C8: every asset write path counts current campaign membership
before writing; accepted writes preserve `count ≤ 9` for every campaign,
and an attempted assignment to a full campaign (the 10th asset) is
rejected with an error response, leaving the store untouched. -/
theorem claim8_campaign_capacity (db : DB) (hwf : assetsWF db)
    (hinv : assetCapInv db) :
    (∀ body newId now, assetCapInv (createAsset db body newId now).db) ∧
    (∀ body s3ok fileUrl thumbUrl newId now,
      assetCapInv (uploadAsset db body s3ok fileUrl thumbUrl newId now).db) ∧
    (∀ id body, assetCapInv (updateAsset db id body).db) ∧
    (∀ body cid newId now, body.campaignId = some cid →
      MAX_ASSETS_PER_CAMPAIGN ≤ countAssetsInCampaign db cid →
      (createAsset db body newId now).db = db ∧
      (createAsset db body newId now).status ≠ 201) ∧
    (∀ body s3ok fileUrl thumbUrl cid newId now, body.campaignId = some cid →
      MAX_ASSETS_PER_CAMPAIGN ≤ countAssetsInCampaign db cid →
      (uploadAsset db body s3ok fileUrl thumbUrl newId now).db = db ∧
      (uploadAsset db body s3ok fileUrl thumbUrl newId now).status ≠ 201) ∧
    (∀ id body a cid, findAsset db id = some a → body.campaignId = .val cid →
      a.campaignId ≠ some cid →
      MAX_ASSETS_PER_CAMPAIGN ≤ countAssetsInCampaign db cid →
      (updateAsset db id body).db = db ∧ (updateAsset db id body).status ≠ 200) :=
  ⟨fun body newId now => createAsset_capInv db body newId now hinv,
   fun body s3ok fileUrl thumbUrl newId now =>
     uploadAsset_capInv db body s3ok fileUrl thumbUrl newId now hinv,
   fun id body => updateAsset_capInv db id body hwf hinv,
   fun body cid newId now hbody hfull =>
     createAsset_reject db body cid newId now hbody hfull,
   fun body s3ok fileUrl thumbUrl cid newId now hbody hfull =>
     uploadAsset_reject db body s3ok fileUrl thumbUrl cid newId now hbody hfull,
   fun id body a cid hfind hbody hne hfull =>
     updateAsset_reject db id body a cid hfind hbody hne hfull⟩

/-- Witness for C8: campaign 800 already holds 9 assets; the 10th
creation attempt is rejected and the store is unchanged. -/
theorem claim8_campaign_capacity_witness :
    (createAsset c8DB c8Body 99 9).db = c8DB ∧
    (createAsset c8DB c8Body 99 9).status ≠ 201 :=
  (claim8_campaign_capacity c8DB (by unfold assetsWF; decide)
    (fun cid => le_trans (List.length_filter_le _ _) (by decide))).2.2.2.1
    c8Body 800 99 9 (by decide) (by decide)

/-! ## Claim C9 — playlist campaign capacity (at most 7) -/

theorem findPlaylist_mem {db : DB} {id : Nat} {p : Playlist}
    (h : findPlaylist db id = some p) : p ∈ db.playlists := by
  unfold findPlaylist at h
  exact List.mem_of_find?_eq_some h

theorem findPlaylist_id {db : DB} {id : Nat} {p : Playlist}
    (h : findPlaylist db id = some p) : p._id = id := by
  unfold findPlaylist at h
  simpa using List.find?_some h

theorem createPlaylist_capInv (db : DB) (body : CreatePlaylistBody) (newId : Nat)
    (hinv : playlistCapInv db) :
    playlistCapInv (createPlaylist db body newId).db := by
  unfold createPlaylist
  split_ifs with h1 h2 h3 h4 h5 h6
  · exact hinv
  · exact hinv
  · exact hinv
  · exact hinv
  · exact hinv
  · exact hinv
  · intro q hq
    rcases List.mem_append.mp hq with hq | hq
    · exact hinv q hq
    · rw [List.mem_singleton] at hq
      subst hq
      show body.campaignIds.length ≤ _
      simp only [MAX_CAMPAIGNS_PER_PLAYLIST] at h3 ⊢
      omega

theorem putPlaylist_capInv (db : DB) (id : Nat) (body : UpdatePlaylistBody)
    (hinv : playlistCapInv db) :
    playlistCapInv (putPlaylist db id body).db := by
  unfold putPlaylist
  cases hfind : findPlaylist db id with
  | none => exact hinv
  | some p =>
    split_ifs with h1 h2 h3 h4 h5
    · exact hinv
    · exact hinv
    · exact hinv
    · exact hinv
    · exact hinv
    · intro q hq
      obtain ⟨q0, hq0, rfl⟩ := List.mem_map.mp hq
      show (if q0._id = id then applyPlaylistUpdate body q0 else q0).campaignIds.length ≤ _
      by_cases hid : q0._id = id
      · rw [if_pos hid]
        show (body.campaignIds.getD q0.campaignIds).length ≤ _
        cases hb : body.campaignIds with
        | none => simpa using hinv q0 hq0
        | some l =>
          rw [hb] at h3
          simp only [Option.getD_some]
          simp only [MAX_CAMPAIGNS_PER_PLAYLIST] at h3 ⊢
          simp at h3
          omega
      · rw [if_neg hid]
        exact hinv q0 hq0

theorem addAssetsCampaignStage_ok (db : DB) (p : Playlist) (cl? : Option (List Nat))
    (cids : List Nat) (h : addAssetsCampaignStage db p cl? = .ok cids) :
    cids = p.campaignIds ∨ cids.length ≤ MAX_CAMPAIGNS_PER_PLAYLIST := by
  cases cl? with
  | none =>
    simp only [addAssetsCampaignStage, Except.ok.injEq] at h
    exact Or.inl h.symm
  | some l =>
    simp only [addAssetsCampaignStage] at h
    split at h
    · rw [Except.ok.injEq] at h
      exact Or.inl h.symm
    · split at h
      · cases h
      · split at h
        · cases h
        · rename_i hlen _
          rw [Except.ok.injEq] at h
          right
          rw [← h, List.length_append]
          simp only [MAX_CAMPAIGNS_PER_PLAYLIST] at hlen ⊢
          omega

theorem addAssets_capInv (db : DB) (body : AddAssetsBody)
    (hinv : playlistCapInv db) :
    playlistCapInv (addAssetsToPlaylist db body).db := by
  unfold addAssetsToPlaylist
  cases hb : body.playlistId with
  | none => exact hinv
  | some pid =>
    cases hfind : findPlaylist db pid with
    | none => simp only [hfind]; exact hinv
    | some p =>
      simp only [hfind]
      cases hstage : addAssetsCampaignStage db p body.campaignIds with
      | error s => simp only [hstage]; exact hinv
      | ok cids =>
        simp only [hstage]
        cases hastage : addAssetsAssetStage db p body.assetIds with
        | error s => simp only [hastage]; exact hinv
        | ok aids =>
          simp only [hastage]
          intro q hq
          obtain ⟨q0, hq0, rfl⟩ := List.mem_map.mp hq
          show (if q0._id = pid then { q0 with campaignIds := cids, assetIds := aids }
              else q0).campaignIds.length ≤ _
          by_cases hid : q0._id = pid
          · rw [if_pos hid]
            show cids.length ≤ _
            rcases addAssetsCampaignStage_ok db p body.campaignIds cids hstage with h | h
            · rw [h]
              exact hinv p (findPlaylist_mem hfind)
            · exact h
          · rw [if_neg hid]
            exact hinv q0 hq0

theorem addCampaign_capInv (db : DB) (id : Nat) (cid? : Option Nat)
    (hpwf : playlistsWF db) (hinv : playlistCapInv db) :
    playlistCapInv (addCampaignToPlaylist db id cid?).db := by
  unfold addCampaignToPlaylist
  cases cid? with
  | none => exact hinv
  | some cid =>
    cases hfind : findPlaylist db id with
    | none => simp only [hfind]; exact hinv
    | some p =>
      simp only [hfind]
      cases hc : findCampaign db cid with
      | none => simp only [hc]; exact hinv
      | some camp =>
        simp only [hc]
        split_ifs with h1 h2
        · exact hinv
        · exact hinv
        · intro q hq
          obtain ⟨q0, hq0, rfl⟩ := List.mem_map.mp hq
          show (if q0._id = id then { q0 with campaignIds := q0.campaignIds ++ [cid] }
              else q0).campaignIds.length ≤ _
          by_cases hid : q0._id = id
          · rw [if_pos hid]
            show (q0.campaignIds ++ [cid]).length ≤ _
            have hq0p : q0 = p := by
              refine List.inj_on_of_nodup_map hpwf hq0 (findPlaylist_mem hfind) ?_
              rw [hid, findPlaylist_id hfind]
            subst hq0p
            rw [List.length_append]
            simp only [MAX_CAMPAIGNS_PER_PLAYLIST] at h1 ⊢
            simp only [List.length_singleton]
            omega
          · rw [if_neg hid]
            exact hinv q0 hq0

theorem addCampaign_reject (db : DB) (id cid : Nat) (p : Playlist)
    (hfind : findPlaylist db id = some p)
    (hfull : MAX_CAMPAIGNS_PER_PLAYLIST ≤ p.campaignIds.length) :
    (addCampaignToPlaylist db id (some cid)).db = db ∧
    (addCampaignToPlaylist db id (some cid)).status ≠ 200 := by
  unfold addCampaignToPlaylist
  simp only [hfind]
  cases hc : findCampaign db cid with
  | none => exact ⟨by simp, by simp⟩
  | some camp =>
    simp only [hc]
    rw [if_pos hfull]
    exact ⟨by simp, by simp⟩

theorem addAssets_reject (db : DB) (body : AddAssetsBody) (pid : Nat)
    (p : Playlist) (cl : List Nat)
    (hb : body.playlistId = some pid) (hfind : findPlaylist db pid = some p)
    (hcl : body.campaignIds = some cl) (hne : ¬ cl.isEmpty)
    (hover : MAX_CAMPAIGNS_PER_PLAYLIST <
      p.campaignIds.length + (newCampaignIds p cl).length) :
    (addAssetsToPlaylist db body).db = db ∧
    (addAssetsToPlaylist db body).status ≠ 200 := by
  have hstage : addAssetsCampaignStage db p body.campaignIds = .error 400 := by
    rw [hcl]
    simp only [addAssetsCampaignStage]
    rw [if_neg hne, if_pos hover]
  unfold addAssetsToPlaylist
  simp only [hb, hfind, hstage]
  exact ⟨by simp, by simp⟩

/-- Claim C9: every playlist write path enforces `len(campaignIds) ≤ 7`:
creation, full update (PUT, and PATCH which duplicates it), bulk
addition and single addition all preserve the bound on every stored
playlist, and an 8th campaign addition — single or bulk — is rejected
without mutating the store. -/
theorem claim9_playlist_capacity (db : DB) (hpwf : playlistsWF db)
    (hinv : playlistCapInv db) :
    (∀ body newId, playlistCapInv (createPlaylist db body newId).db) ∧
    (∀ id body, playlistCapInv (putPlaylist db id body).db) ∧
    (∀ id body, playlistCapInv (patchPlaylist db id body).db) ∧
    (∀ body, playlistCapInv (addAssetsToPlaylist db body).db) ∧
    (∀ id cid?, playlistCapInv (addCampaignToPlaylist db id cid?).db) ∧
    (∀ id cid p, findPlaylist db id = some p →
      MAX_CAMPAIGNS_PER_PLAYLIST ≤ p.campaignIds.length →
      (addCampaignToPlaylist db id (some cid)).db = db ∧
      (addCampaignToPlaylist db id (some cid)).status ≠ 200) ∧
    (∀ body pid p cl, body.playlistId = some pid → findPlaylist db pid = some p →
      body.campaignIds = some cl → ¬ cl.isEmpty →
      MAX_CAMPAIGNS_PER_PLAYLIST <
        p.campaignIds.length + (newCampaignIds p cl).length →
      (addAssetsToPlaylist db body).db = db ∧
      (addAssetsToPlaylist db body).status ≠ 200) :=
  ⟨fun body newId => createPlaylist_capInv db body newId hinv,
   fun id body => putPlaylist_capInv db id body hinv,
   fun id body => putPlaylist_capInv db id body hinv,
   fun body => addAssets_capInv db body hinv,
   fun id cid? => addCampaign_capInv db id cid? hpwf hinv,
   fun id cid p hfind hfull => addCampaign_reject db id cid p hfind hfull,
   fun body pid p cl hb hfind hcl hne hover =>
     addAssets_reject db body pid p cl hb hfind hcl hne hover⟩

/-- Witness for C9: playlist 90 already references 7 campaigns; adding
an 8th existing campaign is rejected and the store is unchanged. -/
theorem claim9_playlist_capacity_witness :
    (addCampaignToPlaylist c9DB 90 (some 907)).db = c9DB ∧
    (addCampaignToPlaylist c9DB 90 (some 907)).status ≠ 200 :=
  (claim9_playlist_capacity c9DB (by unfold playlistsWF; decide)
    (by unfold playlistCapInv; decide)).2.2.2.2.2.1
    90 907 c9P (by decide) (by decide)

end CMS
